import Mathlib

/-
Verification of the user-dictionary manager of `voicevox_engine`
(`voicevox_engine/user_dict/user_dict_manager.py`).

The manager keeps a persisted JSON document mapping UUID strings to word
entries, and regenerates a compiled OpenJTalk index after every mutation.
This file gives a shallow embedding of that module:

* Python dicts become association lists (`List (String × α)`) with Python's
  insertion-order/overwrite semantics (`dictGet`, `dictInsert`, `pyMerge`, ...).
* The persisted file, the analyzer's hot-swapped index and the external
  environment (base-dictionary presence, compiler outcome) become an explicit
  state (`DictState`) and environment (`Env`), and every method of the
  `UserDictionary` class becomes a function threading that state.
* Python's `uuid.UUID(s)` / `str(uuid)` normalization used by `read_dict`
  is modelled character-by-character (`pyUUIDCanonical`).
* The lock structure of the source (the `_mutex_wrapper` decorators sit on
  `read_dict`, `_write_to_json` and `update_dict` only, not on the compound
  operations) is modelled by an interleaving semantics whose atomic steps are
  exactly the decorated methods (`stepThread`, `runSchedule`).

The word codec (`user_dict_word.py`: `create_word`, the save-format
conversions, `priority2cost`) is an external collaborator of the module under
verification; its definitions below are modelled from the spec.
-/

set_option linter.unusedVariables false
set_option linter.unnecessarySimpa false
set_option maxRecDepth 4096

namespace UserDict

/-- WordEntry of the data model: one pronunciation-override record, as the
in-memory `UserDictWord` pydantic model (`model.py`, external schema). -/
structure UserDictWord where
  surface : String
  context_id : Nat
  part_of_speech : String
  part_of_speech_detail_1 : String
  part_of_speech_detail_2 : String
  part_of_speech_detail_3 : String
  inflectional_type : String
  inflectional_form : String
  stem : String
  yomi : String
  pronunciation : String
  accent_type : Nat
  mora_count : Nat
  accent_associative_rule : String
  priority : Nat
  deriving DecidableEq

/-- Modelled from the spec: the save format stores a `cost` field instead of
`priority` (spec §6: "a 'cost' field is stored instead of 'priority' and is
converted in both directions"); `SaveFormatUserDictWord` is otherwise the same
record (`user_dict_word.py`, not under `src/`). -/
structure SaveFormatUserDictWord where
  surface : String
  context_id : Nat
  part_of_speech : String
  part_of_speech_detail_1 : String
  part_of_speech_detail_2 : String
  part_of_speech_detail_3 : String
  inflectional_type : String
  inflectional_form : String
  stem : String
  yomi : String
  pronunciation : String
  accent_type : Nat
  mora_count : Nat
  accent_associative_rule : String
  cost : Int
  deriving DecidableEq

/-- Modelled from the spec: the `WordProperty` request record consumed by
`create_word` (`user_dict_word.py`, not under `src/`). -/
structure WordProperty where
  surface : String
  pronunciation : String
  accent_type : Nat
  priority : Nat
  deriving DecidableEq

/-- One row of the PartOfSpeech reference table (`part_of_speech_data` in
`user_dict_word.py`, not under `src/`): category name fields, numeric
context id, and the allowed accent-associative rules (spec §3). -/
structure PartOfSpeechDetail where
  part_of_speech : String
  part_of_speech_detail_1 : String
  part_of_speech_detail_2 : String
  part_of_speech_detail_3 : String
  context_id : Nat
  accent_associative_rules : List String
  deriving DecidableEq

/-- Modelled from the spec: the Word Codec's priority→cost conversion
(`priority2cost` in `user_dict_word.py`, not under `src/`). The spec fixes
only that it computes a numeric cost from priority and category and that the
conversion is invertible (spec §8: priority == costToPriority(priorityToCost(priority))). -/
def priority2cost (context_id : Nat) (priority : Nat) : Int :=
  - (priority : Int)

/-- Modelled from the spec: the inverse cost→priority conversion
(`cost2priority` in `user_dict_word.py`, not under `src/`). -/
def cost2priority (context_id : Nat) (cost : Int) : Nat :=
  (- cost).toNat

/-- Modelled from the spec: `convert_to_save_format` (`user_dict_word.py`, not
under `src/`): same fields, with `priority` replaced by the derived `cost`. -/
def convert_to_save_format (w : UserDictWord) : SaveFormatUserDictWord :=
  { surface := w.surface
    context_id := w.context_id
    part_of_speech := w.part_of_speech
    part_of_speech_detail_1 := w.part_of_speech_detail_1
    part_of_speech_detail_2 := w.part_of_speech_detail_2
    part_of_speech_detail_3 := w.part_of_speech_detail_3
    inflectional_type := w.inflectional_type
    inflectional_form := w.inflectional_form
    stem := w.stem
    yomi := w.yomi
    pronunciation := w.pronunciation
    accent_type := w.accent_type
    mora_count := w.mora_count
    accent_associative_rule := w.accent_associative_rule
    cost := priority2cost w.context_id w.priority }

/-- Modelled from the spec: `convert_from_save_format` (`user_dict_word.py`,
not under `src/`): recovers `priority` from the stored `cost`. -/
def convert_from_save_format (w : SaveFormatUserDictWord) : UserDictWord :=
  { surface := w.surface
    context_id := w.context_id
    part_of_speech := w.part_of_speech
    part_of_speech_detail_1 := w.part_of_speech_detail_1
    part_of_speech_detail_2 := w.part_of_speech_detail_2
    part_of_speech_detail_3 := w.part_of_speech_detail_3
    inflectional_type := w.inflectional_type
    inflectional_form := w.inflectional_form
    stem := w.stem
    yomi := w.yomi
    pronunciation := w.pronunciation
    accent_type := w.accent_type
    mora_count := w.mora_count
    accent_associative_rule := w.accent_associative_rule
    priority := cost2priority w.context_id w.cost }

/-- Modelled from the spec: the Word Codec's `create_word`
(`user_dict_word.py`, not under `src/`): converts a validated `WordProperty`
into a WordEntry carrying the noun category's reference-table fields
(spec §4.4 "validates and converts WordSpec into a WordEntry"); its phonetic
internals (mora counting, yomi derivation) are external per spec §1. -/
def create_word (w : WordProperty) : UserDictWord :=
  { surface := w.surface
    context_id := 1348
    part_of_speech := "名詞"
    part_of_speech_detail_1 := "固有名詞"
    part_of_speech_detail_2 := "一般"
    part_of_speech_detail_3 := "*"
    inflectional_type := "*"
    inflectional_form := "*"
    stem := "*"
    yomi := w.pronunciation
    pronunciation := w.pronunciation
    accent_type := w.accent_type
    mora_count := w.pronunciation.length
    accent_associative_rule := "*"
    priority := w.priority }

/-! ### Python dict semantics over association lists

A Python `dict[str, T]` is an insertion-ordered map.  `dictInsert` models
`d[k] = v` (overwrite in place, or append), `dictRemove` models `del d[k]`,
and `pyMerge a b` models the literal `{**a, **b}` (later entries win). -/

/-- Lookup, as Python `d[k]` / `d.get(k)`. -/
def dictGet {α : Type} (d : List (String × α)) (k : String) : Option α :=
  match d with
  | [] => none
  | p :: rest => if p.1 = k then some p.2 else dictGet rest k

/-- Membership, as Python `k in d`. -/
def dictContains {α : Type} (d : List (String × α)) (k : String) : Bool :=
  (dictGet d k).isSome

/-- Keys in insertion order, as Python `list(d)`. -/
def dictKeys {α : Type} (d : List (String × α)) : List String :=
  d.map Prod.fst

/-- Assignment `d[k] = v`: overwrite in place when the key is present,
append otherwise. -/
def dictInsert {α : Type} (d : List (String × α)) (k : String) (v : α) :
    List (String × α) :=
  if dictContains d k then d.map (fun p => if p.1 = k then (k, v) else p)
  else d ++ [(k, v)]

/-- Deletion `del d[k]`. -/
def dictRemove {α : Type} (d : List (String × α)) (k : String) :
    List (String × α) :=
  match d with
  | [] => []
  | p :: rest => if p.1 = k then dictRemove rest k else p :: dictRemove rest k

/-- The Python merge expression with later entries winning: `pyMerge a b`
models the dict literal built from `a`'s entries then `b`'s entries, i.e.
`b` wins on key collision. -/
def pyMerge {α : Type} (a b : List (String × α)) : List (String × α) :=
  b.foldl (fun acc p => dictInsert acc p.1 p.2) a

/-- The `for pos_detail in part_of_speech_data.values(): if word.context_id ==
pos_detail.context_id: ...; break / else: raise` scan of
`import_user_dict`: first table row with the given context id. -/
def findPos (table : List PartOfSpeechDetail) (cid : Nat) :
    Option PartOfSpeechDetail :=
  match table with
  | [] => none
  | pos :: rest => if pos.context_id = cid then some pos else findPos rest cid

/-! ### Python `uuid.UUID(s)` / `str(uuid)` normalization

`read_dict` rebuilds every key as `str(UUID(word_uuid))`.  Python's
`UUID.__init__` for a string argument removes every occurrence of `urn:` and
`uuid:`, strips leading/trailing braces, removes hyphens, then requires
exactly 32 hexadecimal digits; `str` re-renders them lowercase in 8-4-4-4-12
form. -/

/-- Non-overlapping left-to-right removal of every occurrence of `pat`, as
Python `s.replace(pat, '')`; fuelled so that it reduces by computation. -/
def removeAllAux (pat : List Char) : Nat → List Char → List Char
  | 0, l => l
  | _ + 1, [] => []
  | fuel + 1, c :: rest =>
    if pat ≠ [] ∧ pat.isPrefixOf (c :: rest) then
      removeAllAux pat fuel ((c :: rest).drop pat.length)
    else c :: removeAllAux pat fuel rest

/-- Python `s.replace(pat, '')`. -/
def removeAll (pat l : List Char) : List Char :=
  removeAllAux pat l.length l

/-- The characters stripped by Python `s.strip(chars)` for the brace pair. -/
def isBraceChar (c : Char) : Bool :=
  c == '\x7b' || c == '\x7d'

/-- Python `s.strip` over the brace pair: drop leading and trailing braces. -/
def stripBraces (l : List Char) : List Char :=
  ((l.dropWhile isBraceChar).reverse.dropWhile isBraceChar).reverse

/-- The sixteen lowercase hexadecimal digits, the alphabet of `'%032x' % int`. -/
def lowerHexChars : List Char :=
  ['0', '1', '2', '3'] ++ ['4', '5', '6', '7'] ++
    ['8', '9', 'a', 'b'] ++ ['c', 'd', 'e', 'f']

/-- The digit characters accepted by Python `int(s, 16)` inside `UUID.__init__`. -/
def hexChars : List Char :=
  lowerHexChars ++ (['A', 'B', 'C'] ++ ['D', 'E', 'F'])

/-- Lowercase hexadecimal digits. -/
def isLowerHexDigit (c : Char) : Bool :=
  lowerHexChars.contains c

/-- Hexadecimal digits of either case. -/
def isHexDigit (c : Char) : Bool :=
  hexChars.contains c

/-- Lowercasing of a hexadecimal digit, the effect of `int(s, 16)` followed by
lowercase hexadecimal formatting on each digit. -/
def hexDigitLower (c : Char) : Char :=
  if c = 'A' then 'a' else if c = 'B' then 'b' else if c = 'C' then 'c'
  else if c = 'D' then 'd' else if c = 'E' then 'e' else if c = 'F' then 'f'
  else c

/-- Reinsert the canonical hyphens: 8-4-4-4-12 grouping of `str(uuid)`. -/
def insertHyphens (h : List Char) : List Char :=
  h.take 8 ++ '-' :: ((h.drop 8).take 4 ++ '-' :: ((h.drop 12).take 4 ++
    '-' :: ((h.drop 16).take 4 ++ '-' :: h.drop 20)))

/-- Python `str(UUID(s))` on character lists: `none` when `UUID(s)` raises
`ValueError`, otherwise the canonical lowercase hyphenated rendering. -/
def pyUUIDCanonicalList (l : List Char) : Option (List Char) :=
  let h := (stripBraces (removeAll "uuid:".toList (removeAll "urn:".toList l))).filter
    (fun c => !(c == '-'))
  if h.length = 32 ∧ h.all isHexDigit = true then
    some (insertHyphens (h.map hexDigitLower))
  else none

/-- Python `str(UUID(s))` on strings. -/
def pyUUIDCanonical (s : String) : Option String :=
  (pyUUIDCanonicalList s.toList).map String.mk

/-- A character list is a canonical UUID rendering when it is exactly its own
32 lowercase hexadecimal digits regrouped as 8-4-4-4-12. -/
def isCanonicalUUIDList (l : List Char) : Bool :=
  let h := l.filter (fun c => !(c == '-'))
  h.length == 32 && h.all isLowerHexDigit && decide (insertHyphens h = l)

/-- Canonical (lowercase hyphenated) UUID strings. -/
def isCanonicalUUID (s : String) : Bool :=
  isCanonicalUUIDList s.toList

/-! ### The manager state, environment and error taxonomy -/

/-- The typed errors of the spec's taxonomy (§7), as raised by the module:
`notFound` is `UserDictInputError` of `rewrite_word`/`delete_word`,
`unsupportedCategory` the `ValueError("対応していない品詞です")` and
`categoryAssertion` the `AssertionError`s of `import_user_dict`'s validation,
`invalidUuid` the `ValueError` of `UUID(word_uuid)`, `compilationError` the
`RuntimeError` of the compile step.  `missingBaseDictionary` is the spec's
`MissingBaseDictionaryError`; no code path raises it. -/
inductive DictErr where
  | notFound
  | unsupportedCategory
  | categoryAssertion
  | invalidUuid
  | compilationError
  | missingBaseDictionary
  deriving DecidableEq

/-- Decidable equality of operation results, so that closed instances can be
settled by evaluation. -/
instance {ε α : Type} [DecidableEq ε] [DecidableEq α] : DecidableEq (Except ε α) :=
  fun x y =>
  match x, y with
  | .ok a, .ok b =>
    if h : a = b then .isTrue (by rw [h]) else .isFalse (fun hh => h (Except.ok.inj hh))
  | .error a, .error b =>
    if h : a = b then .isTrue (by rw [h]) else .isFalse (fun hh => h (Except.error.inj hh))
  | .ok a, .error b => .isFalse (fun hh => Except.noConfusion hh)
  | .error a, .ok b => .isFalse (fun hh => Except.noConfusion hh)

/-- Outcome of the external `pyopenjtalk.mecab_dict_index` call: it can
succeed and leave the artifact, raise, or return without producing the
expected output file. -/
inductive CompileOutcome where
  | ok
  | raisesError
  | noArtifact
  deriving DecidableEq

/-- The `sys.platform == "win32"` branch of `_delete_file_on_close`. -/
inductive Platform where
  | win32
  | other
  deriving DecidableEq

/-- How deletion of a temporary file was requested. -/
inductive RemovalMode where
  | immediateUnlink
  | deleteOnLastClose
  deriving DecidableEq

/-- External environment of one pipeline run: the base dictionary file's
content (`none` when `default_dict_path.is_file()` is false) and the external
compiler's behaviour. -/
structure Env where
  defaultDictText : Option String
  compileOutcome : CompileOutcome

/-- The mutable state the module acts on: the persisted `user_dict.json`
document (`none` when the file does not exist; structured save-format content
otherwise) and the analyzer's process-wide active index, identified by the
CSV text it was compiled from. -/
structure DictState where
  file : Option (List (String × SaveFormatUserDictWord))
  analyzerCsv : Option String
  deriving DecidableEq

/-- Observable record of one `update_dict` run: whether the missing-base
warning fired, whether each temporary file was created, whether the CSV
temporary remains after the `finally` block, and how removal of the compiled
temporary was requested. -/
structure UpdateLog where
  warnedMissingBase : Bool
  csvCreated : Bool
  csvRemaining : Bool
  compiledCreated : Bool
  compiledRemoval : Option RemovalMode
  deriving DecidableEq

/-- Result of one `update_dict` run. -/
structure UpdateResult where
  state : DictState
  result : Except DictErr Unit
  log : UpdateLog

/-- The platform-conditional deletion request of `_delete_file_on_close`:
`FILE_FLAG_DELETE_ON_CLOSE` open-and-close on Windows, immediate
`Path.unlink` elsewhere. -/
def _delete_file_on_close (plat : Platform) : RemovalMode :=
  match plat with
  | .win32 => .deleteOnLastClose
  | .other => .immediateUnlink

/-- Python whitespace, as stripped by `str.rstrip()`. -/
def isPySpace (c : Char) : Bool :=
  c == ' ' || c == '\t' || c == '\n' || c == '\r' || c == '\x0b' || c == '\x0c'

/-- Python `s.rstrip()`. -/
def rstrip (s : String) : String :=
  String.mk (s.toList.reverse.dropWhile isPySpace).reverse

/-- One CSV line of the export format built in `update_dict` (lines 184-206):
surface, context id twice, derived cost, the category fields, inflection,
stem/yomi/pronunciation, `accent_type/mora_count`, accent-associative rule. -/
def word_csv_line (word : UserDictWord) : String :=
  word.surface ++ "," ++ toString word.context_id ++ "," ++
  toString word.context_id ++ "," ++
  toString (priority2cost word.context_id word.priority) ++ "," ++
  word.part_of_speech ++ "," ++ word.part_of_speech_detail_1 ++ "," ++
  word.part_of_speech_detail_2 ++ "," ++ word.part_of_speech_detail_3 ++ "," ++
  word.inflectional_type ++ "," ++ word.inflectional_form ++ "," ++
  word.stem ++ "," ++ word.yomi ++ "," ++ word.pronunciation ++ "," ++
  toString word.accent_type ++ "/" ++ toString word.mora_count ++ "," ++
  word.accent_associative_rule ++ "\n"

/-- The CSV blob of `update_dict`: base dictionary text first (with a newline
appended when it had no trailing whitespace), then one line per user entry in
dictionary order. -/
def csv_text_of (base : String) (user_dict : List (String × UserDictWord)) :
    String :=
  user_dict.foldl (fun acc p => acc ++ word_csv_line p.2) base

/-- The key-normalizing read loop of `read_dict` (lines 239-241):
`result[str(UUID(word_uuid))] = convert_from_save_format(word)` over the
persisted document, failing when a key is not a valid UUID string. -/
def readEntries (doc : List (String × SaveFormatUserDictWord))
    (acc : List (String × UserDictWord)) :
    Except DictErr (List (String × UserDictWord)) :=
  match doc with
  | [] => .ok acc
  | (k, w) :: rest =>
    match pyUUIDCanonical k with
    | none => .error .invalidUuid
    | some k' => readEntries rest (dictInsert acc k' (convert_from_save_format w))

/-- `UserDictionary.read_dict`: empty dictionary when the file does not
exist, otherwise the parsed document with keys normalized through
`str(UUID(-))`. -/
def read_dict (st : DictState) : Except DictErr (List (String × UserDictWord)) :=
  match st.file with
  | none => .ok []
  | some doc => readEntries doc []

/-- The save-format document built by `_write_to_json` (lines 146-149):
every entry converted through `convert_to_save_format`, keys verbatim. -/
def toSaveDoc (user_dict : List (String × UserDictWord)) :
    List (String × SaveFormatUserDictWord) :=
  user_dict.map (fun p => (p.1, convert_to_save_format p.2))

/-- `UserDictionary._write_to_json`: converts every entry to the save format
and replaces the persisted document with the serialized mapping. -/
def _write_to_json (st : DictState)
    (user_dict : List (String × UserDictWord)) : DictState :=
  { st with file := some (toSaveDoc user_dict) }

/-- `UserDictionary.update_dict`, the recompilation pipeline: when the base
dictionary file is missing, warn and return (no error, no state change);
otherwise read the user dictionary, build the CSV text, write the CSV
temporary, compile it (raising `CompilationError` when the compiler raises or
the artifact does not appear), hot-swap the analyzer's active index, and in
the `finally` block unlink the CSV temporary and request removal of the
compiled temporary via `_delete_file_on_close`. -/
def update_dict (plat : Platform) (env : Env) (st : DictState) : UpdateResult :=
  match env.defaultDictText with
  | none =>
    { state := st
      result := .ok ()
      log := { warnedMissingBase := true, csvCreated := false,
               csvRemaining := false, compiledCreated := false,
               compiledRemoval := none } }
  | some txt =>
    let base := if txt = rstrip txt then txt ++ "\n" else txt
    match read_dict st with
    | .error e =>
      { state := st
        result := .error e
        log := { warnedMissingBase := false, csvCreated := false,
                 csvRemaining := false, compiledCreated := false,
                 compiledRemoval := none } }
    | .ok user_dict =>
      let csv := csv_text_of base user_dict
      match env.compileOutcome with
      | .raisesError =>
        { state := st
          result := .error .compilationError
          log := { warnedMissingBase := false, csvCreated := true,
                   csvRemaining := false, compiledCreated := false,
                   compiledRemoval := none } }
      | .noArtifact =>
        { state := st
          result := .error .compilationError
          log := { warnedMissingBase := false, csvCreated := true,
                   csvRemaining := false, compiledCreated := false,
                   compiledRemoval := none } }
      | .ok =>
        { state := { st with analyzerCsv := some csv }
          result := .ok ()
          log := { warnedMissingBase := false, csvCreated := true,
                   csvRemaining := false, compiledCreated := true,
                   compiledRemoval := some (_delete_file_on_close plat) } }

/-- `UserDictionary.apply_word`: read the dictionary, insert the freshly
created word under a fresh UUID, persist, recompile, return the UUID.  The
fresh UUID produced by `uuid4()` is passed explicitly. -/
def apply_word (plat : Platform) (env : Env) (st : DictState)
    (word_property : WordProperty) (fresh_uuid : String) :
    DictState × Except DictErr String :=
  match read_dict st with
  | .error e => (st, .error e)
  | .ok user_dict =>
    let user_dict' := dictInsert user_dict fresh_uuid (create_word word_property)
    let st1 := _write_to_json st user_dict'
    let u := update_dict plat env st1
    (u.state, match u.result with
              | .ok _ => .ok fresh_uuid
              | .error e => .error e)

/-- `UserDictionary.rewrite_word`: `UserDictInputError` when the UUID is
absent, otherwise replace the entry, persist, recompile. -/
def rewrite_word (plat : Platform) (env : Env) (st : DictState)
    (word_uuid : String) (word_property : WordProperty) :
    DictState × Except DictErr Unit :=
  match read_dict st with
  | .error e => (st, .error e)
  | .ok user_dict =>
    if dictContains user_dict word_uuid then
      let user_dict' := dictInsert user_dict word_uuid (create_word word_property)
      let st1 := _write_to_json st user_dict'
      let u := update_dict plat env st1
      (u.state, u.result)
    else (st, .error .notFound)

/-- `UserDictionary.delete_word`: `UserDictInputError` when the UUID is
absent, otherwise remove the entry, persist, recompile. -/
def delete_word (plat : Platform) (env : Env) (st : DictState)
    (word_uuid : String) : DictState × Except DictErr Unit :=
  match read_dict st with
  | .error e => (st, .error e)
  | .ok user_dict =>
    if dictContains user_dict word_uuid then
      let user_dict' := dictRemove user_dict word_uuid
      let st1 := _write_to_json st user_dict'
      let u := update_dict plat env st1
      (u.state, u.result)
    else (st, .error .notFound)

/-- The per-word category validation of `import_user_dict` (lines 260-281):
scan the reference table for the word's context id; raise `ValueError` when no
row matches, assert the descriptive fields and the accent-associative rule
membership when one does. -/
def validate_word (table : List PartOfSpeechDetail) (word : UserDictWord) :
    Except DictErr Unit :=
  match findPos table word.context_id with
  | none => .error .unsupportedCategory
  | some pos =>
    if word.part_of_speech = pos.part_of_speech ∧
       word.part_of_speech_detail_1 = pos.part_of_speech_detail_1 ∧
       word.part_of_speech_detail_2 = pos.part_of_speech_detail_2 ∧
       word.part_of_speech_detail_3 = pos.part_of_speech_detail_3 ∧
       pos.accent_associative_rules.contains word.accent_associative_rule = true
    then .ok ()
    else .error .categoryAssertion

/-- The validation loop over the whole incoming batch (lines 258-281),
including the `UUID(word_uuid)` key check; it runs before any read or write
of the existing dictionary. -/
def validate_import_data (table : List PartOfSpeechDetail) :
    List (String × UserDictWord) → Except DictErr Unit
  | [] => .ok ()
  | (k, w) :: rest =>
    if (pyUUIDCanonical k).isSome then
      match validate_word table w with
      | .error e => .error e
      | .ok _ => validate_import_data table rest
    else .error .invalidUuid

/-- `UserDictionary.import_user_dict`: validate the whole batch, read the
existing dictionary, merge (`override` selects which side wins on key
collision), persist once, recompile once. -/
def import_user_dict (plat : Platform) (env : Env)
    (table : List PartOfSpeechDetail) (st : DictState)
    (dict_data : List (String × UserDictWord)) (override : Bool) :
    DictState × Except DictErr Unit :=
  match validate_import_data table dict_data with
  | .error e => (st, .error e)
  | .ok _ =>
    match read_dict st with
    | .error e => (st, .error e)
    | .ok old_dict =>
      let new_dict := if override then pyMerge old_dict dict_data
                      else pyMerge dict_data old_dict
      let st1 := _write_to_json st new_dict
      let u := update_dict plat env st1
      (u.state, u.result)

/-! ### Serialized form of the persisted document

`_write_to_json` serializes with `TypeAdapter.dump_json` and replaces the
file with a single in-place `Path.write_bytes` call (line 151), i.e. an
open-truncate-write with no temporary file and no atomic rename. -/

/-- JSON string literal for field values without escapes. -/
def json_str (s : String) : String :=
  "\"" ++ s ++ "\""

/-- Serialized save-format record, one JSON object per word. -/
def dump_save_word (w : SaveFormatUserDictWord) : String :=
  "\x7b\"surface\": " ++ json_str w.surface ++
  ", \"context_id\": " ++ toString w.context_id ++
  ", \"part_of_speech\": " ++ json_str w.part_of_speech ++
  ", \"part_of_speech_detail_1\": " ++ json_str w.part_of_speech_detail_1 ++
  ", \"part_of_speech_detail_2\": " ++ json_str w.part_of_speech_detail_2 ++
  ", \"part_of_speech_detail_3\": " ++ json_str w.part_of_speech_detail_3 ++
  ", \"inflectional_type\": " ++ json_str w.inflectional_type ++
  ", \"inflectional_form\": " ++ json_str w.inflectional_form ++
  ", \"stem\": " ++ json_str w.stem ++
  ", \"yomi\": " ++ json_str w.yomi ++
  ", \"pronunciation\": " ++ json_str w.pronunciation ++
  ", \"accent_type\": " ++ toString w.accent_type ++
  ", \"mora_count\": " ++ toString w.mora_count ++
  ", \"accent_associative_rule\": " ++ json_str w.accent_associative_rule ++
  ", \"cost\": " ++ toString w.cost ++ "\x7d"

/-- Serialized persisted document: one JSON object keyed by UUID string. -/
def dump_json (d : List (String × SaveFormatUserDictWord)) : String :=
  "\x7b" ++ String.intercalate ", "
    (d.map (fun p => json_str p.1 ++ ": " ++ dump_save_word p.2)) ++ "\x7d"

/-- The byte string handed to `Path.write_bytes` by `_write_to_json`
(lines 146-151). -/
def user_dict_json (user_dict : List (String × UserDictWord)) : String :=
  dump_json (user_dict.map (fun p => (p.1, convert_to_save_format p.2)))

/-- The file content observable after `Path.write_bytes` has been interrupted
`k` characters in: `write_bytes` opens the existing file with mode `wb`,
truncating it, then writes the new content front to back, so an interrupted
write leaves a proper prefix of the new content. -/
def write_bytes_interrupted (newContent : String) (k : Nat) : String :=
  String.mk (newContent.toList.take k)

/-- Every file content observable at some interruption point of the in-place
`Path.write_bytes` rewrite. -/
def write_bytes_observable_states (newContent : String) : List String :=
  (List.range (newContent.length + 1)).map (write_bytes_interrupted newContent)

/-! ### The lock granularity of the source, as an interleaving semantics

`_mutex_wrapper(mutex_user_dict)` decorates `read_dict` and `_write_to_json`
individually and `_mutex_wrapper(mutex_openjtalk_dict)` decorates
`update_dict`; `apply_word` itself is undecorated.  A thread running
`apply_word` therefore performs three atomic steps — the locked read (plus
its own local dict update), the locked write of its private snapshot, and the
locked recompile — between which other threads' steps may interleave. -/

/-- One in-flight `apply_word` caller: program counter over its three atomic
sections, the private snapshot built from its own read, and its fresh UUID
and word. -/
structure ApplyThread where
  pc : Nat
  snapshot : List (String × UserDictWord)
  fresh_uuid : String
  word_property : WordProperty
  deriving DecidableEq

/-- One atomic step of an `apply_word` caller: pc 0 is the locked `read_dict`
(followed by the thread-local `user_dict[word_uuid] = create_word(...)`),
pc 1 the locked `_write_to_json` of the private snapshot, pc 2 the locked
`update_dict`. -/
def stepThread (plat : Platform) (env : Env) (st : DictState)
    (t : ApplyThread) : DictState × ApplyThread :=
  match t.pc with
  | 0 =>
    match read_dict st with
    | .ok d =>
      (st, { t with pc := 1,
                    snapshot := dictInsert d t.fresh_uuid
                      (create_word t.word_property) })
    | .error _ => (st, { t with pc := 3 })
  | 1 => (_write_to_json st t.snapshot, { t with pc := 2 })
  | 2 => ((update_dict plat env st).state, { t with pc := 3 })
  | _ => (st, t)

/-- Execute a schedule: at each tick, the named thread performs its next
atomic step against the shared state. -/
def runSchedule (plat : Platform) (env : Env) (st : DictState)
    (ts : List ApplyThread) : List Nat → DictState × List ApplyThread
  | [] => (st, ts)
  | i :: rest =>
    match ts.get? i with
    | none => runSchedule plat env st ts rest
    | some t =>
      let p := stepThread plat env st t
      runSchedule plat env p.1 (ts.set i p.2) rest

/-! ### Concrete sample data used by closed instances -/

/-- A canonical sample UUID. -/
def uuidA : String := "aaaaaaaa-aaaa-4aaa-8aaa-aaaaaaaaaaaa"

/-- A second canonical sample UUID. -/
def uuidB : String := "bbbbbbbb-bbbb-4bbb-8bbb-bbbbbbbbbbbb"

/-- A sample word request. -/
def wp0 : WordProperty :=
  { surface := "ボイボ", pronunciation := "ボイボ", accent_type := 0, priority := 5 }

/-- The word created from `wp0`. -/
def w0 : UserDictWord := create_word wp0

/-- The proper-noun row of the reference table that `create_word`'s output
matches. -/
def properNounRow : PartOfSpeechDetail :=
  { part_of_speech := "名詞"
    part_of_speech_detail_1 := "固有名詞"
    part_of_speech_detail_2 := "一般"
    part_of_speech_detail_3 := "*"
    context_id := 1348
    accent_associative_rules := ["*", "C1", "C2", "C3", "C4", "C5"] }

/-- A sample reference table. -/
def sampleTable : List PartOfSpeechDetail := [properNounRow]

/-- A word whose context id matches no reference-table row. -/
def wBadCategory : UserDictWord :=
  { w0 with context_id := 9999 }

/-- The empty starting state: no persisted file, no loaded index. -/
def stEmpty : DictState := { file := none, analyzerCsv := none }

/-- An environment with the base dictionary present and a working compiler. -/
def envOk : Env :=
  { defaultDictText := some "東京,1285,1285,5000,名詞,固有名詞,地域,一般,*,*,東京,トウキョウ,トウキョウ,0/4,C2"
    compileOutcome := .ok }

/-- An environment whose base dictionary file is absent. -/
def envNoBase : Env :=
  { defaultDictText := none, compileOutcome := .ok }

/-- An environment whose compiler never produces its output artifact. -/
def envCompileFail : Env :=
  { defaultDictText := envOk.defaultDictText, compileOutcome := .noArtifact }

/-- A second sample word request. -/
def wp1 : WordProperty :=
  { surface := "テスト", pronunciation := "テスト", accent_type := 1, priority := 9 }

/-- The word created from `wp1`. -/
def w1 : UserDictWord := create_word wp1

/-- A state whose persisted document holds exactly the entry `uuidA ↦ w0`. -/
def st0 : DictState := _write_to_json stEmpty [(uuidA, w0)]

/-- A state whose persisted document's key is a valid but non-canonical
(uppercase) UUID string. -/
def stUpper : DictState :=
  { file := some [("AAAAAAAA-AAAA-4AAA-8AAA-AAAAAAAAAAAA", convert_to_save_format w0)]
    analyzerCsv := none }

/-- An import batch containing a word whose category matches no row of the
reference table. -/
def badBatch : List (String × UserDictWord) := [(uuidA, wBadCategory)]

/-- An `apply_word` caller about to start, adding `uuidA ↦ create_word wp0`. -/
def threadA : ApplyThread :=
  { pc := 0, snapshot := [], fresh_uuid := uuidA, word_property := wp0 }

/-- A second concurrent `apply_word` caller, adding `uuidB ↦ create_word wp0`. -/
def threadB : ApplyThread :=
  { pc := 0, snapshot := [], fresh_uuid := uuidB, word_property := wp0 }

end UserDict

namespace UserDict

/-! ## Helper lemmas: the Word Codec round trip -/

/-- The save-format conversion is invertible entrywise: recovering priority
from the stored cost restores the original word. -/
theorem convert_from_to_save_format (w : UserDictWord) :
    convert_from_save_format (convert_to_save_format w) = w := by
  simp [convert_from_save_format, convert_to_save_format, cost2priority,
    priority2cost]

/-! ## Helper lemmas: Python dict semantics -/

/-- Lookup distributes over append, first list winning. -/
theorem dictGet_append {α : Type} (a b : List (String × α)) (k : String) :
    dictGet (a ++ b) k =
      match dictGet a k with
      | some v => some v
      | none => dictGet b k := by
  induction a with
  | nil => simp [dictGet]
  | cons p rest ih =>
    by_cases h : p.1 = k <;> simp [dictGet, h, ih]

/-- Keys of a cons cell. -/
@[simp] theorem dictKeys_cons {α : Type} (p : String × α) (l : List (String × α)) :
    dictKeys (p :: l) = p.1 :: dictKeys l := rfl

/-- Keys of the empty dict. -/
@[simp] theorem dictKeys_nil {α : Type} : dictKeys ([] : List (String × α)) = [] := rfl

/-- Lookup after overwrite-in-place of an absent key is unchanged. -/
theorem dictGet_map_replace_ne {α : Type} (d : List (String × α)) (k : String)
    (v : α) (k' : String) (h : k' ≠ k) :
    dictGet (d.map fun p => if p.1 = k then (k, v) else p) k' = dictGet d k' := by
  induction d with
  | nil => simp [dictGet]
  | cons p rest ih =>
    by_cases hp : p.1 = k
    · simp [dictGet, hp, Ne.symm h, ih, h]
    · by_cases hk' : p.1 = k' <;> simp [dictGet, hp, hk', ih, h]

/-- Lookup after overwrite-in-place of a present key yields the new value. -/
theorem dictGet_map_replace_eq {α : Type} (d : List (String × α)) (k : String)
    (v : α) (h : dictContains d k = true) :
    dictGet (d.map fun p => if p.1 = k then (k, v) else p) k = some v := by
  induction d with
  | nil => simp [dictContains, dictGet] at h
  | cons p rest ih =>
    by_cases hp : p.1 = k
    · simp [dictGet, hp]
    · simp [dictContains, dictGet, hp] at h
      simp [dictGet, hp, ih h]

/-- A key absent per `dictContains` has no lookup result. -/
theorem dictGet_eq_none_of_contains {α : Type} (d : List (String × α))
    (k : String) (h : dictContains d k = false) : dictGet d k = none := by
  unfold dictContains at h
  cases hg : dictGet d k with
  | none => rfl
  | some v => rw [hg] at h; simp at h

/-- Lookup after Python assignment `d[k] = v`. -/
theorem dictGet_dictInsert {α : Type} (d : List (String × α)) (k : String)
    (v : α) (k' : String) :
    dictGet (dictInsert d k v) k' = if k' = k then some v else dictGet d k' := by
  unfold dictInsert
  by_cases hc : dictContains d k
  · by_cases hk : k' = k
    · subst hk; simp [hc, dictGet_map_replace_eq d k' v hc]
    · simp [hc, hk, dictGet_map_replace_ne d k v k' hk]
  · simp only [hc, if_false, Bool.false_eq_true]
    rw [dictGet_append]
    by_cases hk : k' = k
    · subst hk
      rw [dictGet_eq_none_of_contains d k' (by simpa using hc)]
      simp [dictGet]
    · cases hg : dictGet d k' <;> simp [dictGet, hk, Ne.symm hk]

/-- Lookup after Python deletion `del d[k]`. -/
theorem dictGet_dictRemove {α : Type} (d : List (String × α)) (k k' : String) :
    dictGet (dictRemove d k) k' = if k' = k then none else dictGet d k' := by
  induction d with
  | nil => simp [dictRemove, dictGet]
  | cons p rest ih =>
    by_cases hp : p.1 = k
    · subst hp
      by_cases hk : k' = p.1
      · subst hk; simp [dictRemove, dictGet, ih]
      · simp [dictRemove, dictGet, hk, Ne.symm hk, ih]
    · by_cases hk' : p.1 = k'
      · subst hk'
        simp [dictRemove, dictGet, hp, fun hh => hp hh, Ne.symm hp]
      · simp [dictRemove, dictGet, hp, hk', ih]

/-- Overwrite-in-place does not change the key sequence. -/
theorem dictKeys_map_replace {α : Type} (d : List (String × α)) (k : String)
    (v : α) :
    dictKeys (d.map fun p => if p.1 = k then (k, v) else p) = dictKeys d := by
  induction d with
  | nil => rfl
  | cons p rest ih =>
    by_cases hp : p.1 = k <;> simp [dictKeys, hp, ih] <;>
      simpa [dictKeys] using ih

/-- Key sequence after Python assignment. -/
theorem dictKeys_dictInsert {α : Type} (d : List (String × α)) (k : String)
    (v : α) :
    dictKeys (dictInsert d k v) =
      if dictContains d k then dictKeys d else dictKeys d ++ [k] := by
  unfold dictInsert
  by_cases hc : dictContains d k
  · simp [hc, dictKeys_map_replace]
  · simp [hc, dictKeys]

/-- Lookup fails exactly on keys outside the key sequence. -/
theorem dictGet_eq_none_iff {α : Type} (d : List (String × α)) (k : String) :
    dictGet d k = none ↔ k ∉ dictKeys d := by
  induction d with
  | nil => simp [dictGet, dictKeys]
  | cons p rest ih =>
    by_cases hp : p.1 = k
    · simp [dictGet, dictKeys, hp]
    · simp [dictGet, dictKeys, hp, ih, Ne.symm hp]

/-- Membership per `dictContains` is membership in the key sequence. -/
theorem dictContains_iff_mem {α : Type} (d : List (String × α)) (k : String) :
    dictContains d k = true ↔ k ∈ dictKeys d := by
  unfold dictContains
  rw [Option.isSome_iff_ne_none]
  constructor
  · intro h
    by_contra hmem
    exact h ((dictGet_eq_none_iff d k).mpr hmem)
  · intro h hnone
    exact ((dictGet_eq_none_iff d k).mp hnone) h

/-- Python assignment keeps the keys duplicate-free. -/
theorem nodup_dictInsert {α : Type} (d : List (String × α)) (k : String)
    (v : α) (h : (dictKeys d).Nodup) : (dictKeys (dictInsert d k v)).Nodup := by
  rw [dictKeys_dictInsert]
  by_cases hc : dictContains d k
  · simpa [hc] using h
  · have hk : k ∉ dictKeys d := by
      intro hmem
      exact absurd ((dictContains_iff_mem d k).mpr hmem) (by simpa using hc)
    simp only [hc, if_false, Bool.false_eq_true]
    simp [List.nodup_append, h, hk]

/-- Keys of a Python deletion are among the original keys. -/
theorem dictKeys_dictRemove_subset {α : Type} (d : List (String × α))
    (k k' : String) (h : k' ∈ dictKeys (dictRemove d k)) : k' ∈ dictKeys d := by
  induction d with
  | nil => simpa [dictRemove] using h
  | cons p rest ih =>
    rw [dictKeys_cons]
    by_cases hp : p.1 = k
    · simp only [dictRemove, hp, if_true] at h
      exact List.mem_cons_of_mem _ (ih h)
    · simp only [dictRemove, hp, if_false] at h
      rw [dictKeys_cons] at h
      rcases List.mem_cons.mp h with h1 | h1
      · exact List.mem_cons.mpr (Or.inl h1)
      · exact List.mem_cons_of_mem _ (ih h1)

/-- Python deletion keeps the keys duplicate-free. -/
theorem nodup_dictRemove {α : Type} (d : List (String × α)) (k : String)
    (h : (dictKeys d).Nodup) : (dictKeys (dictRemove d k)).Nodup := by
  induction d with
  | nil => simpa [dictRemove] using h
  | cons p rest ih =>
    rw [dictKeys_cons] at h
    obtain ⟨hp1, hp2⟩ := List.nodup_cons.mp h
    by_cases hp : p.1 = k
    · simpa [dictRemove, hp] using ih hp2
    · have hnm : p.1 ∉ dictKeys (dictRemove rest k) :=
        fun hmem => hp1 (dictKeys_dictRemove_subset rest k p.1 hmem)
      simp only [dictRemove, hp, if_false, dictKeys_cons]
      exact List.nodup_cons.mpr ⟨hnm, ih hp2⟩

/-- Lookup in the Python merge `pyMerge a b`: the `b` side wins. -/
theorem dictGet_pyMerge {α : Type} (a b : List (String × α)) (k : String)
    (hb : (dictKeys b).Nodup) :
    dictGet (pyMerge a b) k =
      match dictGet b k with
      | some v => some v
      | none => dictGet a k := by
  induction b generalizing a with
  | nil => simp [pyMerge, dictGet]
  | cons p rest ih =>
    rw [dictKeys_cons] at hb
    obtain ⟨hp1, hp2⟩ := List.nodup_cons.mp hb
    have hstep : pyMerge a (p :: rest) = pyMerge (dictInsert a p.1 p.2) rest := rfl
    rw [hstep, ih (dictInsert a p.1 p.2) hp2]
    by_cases hk : p.1 = k
    · subst hk
      rw [(dictGet_eq_none_iff rest p.1).mpr hp1]
      simp [dictGet, dictGet_dictInsert]
    · cases hg : dictGet rest k <;>
        simp [dictGet, hk, Ne.symm hk, hg, dictGet_dictInsert]

/-- Keys of the Python merge come from one of the two sides. -/
theorem dictKeys_pyMerge_subset {α : Type} (a b : List (String × α))
    (k : String) (h : k ∈ dictKeys (pyMerge a b)) :
    k ∈ dictKeys a ∨ k ∈ dictKeys b := by
  induction b generalizing a with
  | nil => exact Or.inl (by simpa [pyMerge] using h)
  | cons p rest ih =>
    have hstep : pyMerge a (p :: rest) = pyMerge (dictInsert a p.1 p.2) rest := rfl
    rw [hstep] at h
    rcases ih (dictInsert a p.1 p.2) h with h1 | h1
    · rw [dictKeys_dictInsert] at h1
      by_cases hc : dictContains a p.1
      · exact Or.inl (by simpa [hc] using h1)
      · rcases (by simpa [hc] using h1 : k ∈ dictKeys a ∨ k = p.1) with h2 | h2
        · exact Or.inl h2
        · exact Or.inr (by rw [dictKeys_cons]; exact List.mem_cons.mpr (Or.inl h2))
    · exact Or.inr (by rw [dictKeys_cons]; exact List.mem_cons_of_mem _ h1)

/-- The Python merge keeps the keys duplicate-free. -/
theorem nodup_pyMerge {α : Type} (a b : List (String × α))
    (ha : (dictKeys a).Nodup) : (dictKeys (pyMerge a b)).Nodup := by
  induction b generalizing a with
  | nil => simpa [pyMerge] using ha
  | cons p rest ih =>
    have hstep : pyMerge a (p :: rest) = pyMerge (dictInsert a p.1 p.2) rest := rfl
    rw [hstep]
    exact ih (dictInsert a p.1 p.2) (nodup_dictInsert a p.1 p.2 ha)

end UserDict

namespace UserDict

/-! ## Helper lemmas: UUID canonicalization -/

/-- Characters of a `contains`-true list membership. -/
theorem mem_of_contains {l : List Char} {c : Char} (h : l.contains c = true) :
    c ∈ l := by
  simpa using h

/-- Lowercasing a hexadecimal digit yields a lowercase hexadecimal digit. -/
theorem lowerHex_of_hexDigitLower :
    ∀ c ∈ hexChars, isLowerHexDigit (hexDigitLower c) = true := by decide

/-- Lowercase hexadecimal digits are hexadecimal digits. -/
theorem hex_of_lowerHex : ∀ c ∈ lowerHexChars, isHexDigit c = true := by decide

/-- Lowercasing fixes lowercase hexadecimal digits. -/
theorem hexDigitLower_id_of_lower :
    ∀ c ∈ lowerHexChars, hexDigitLower c = c := by decide

/-- Lowercase hexadecimal digits are not braces, colons or hyphens. -/
theorem lowerHex_not_special :
    ∀ c ∈ lowerHexChars, isBraceChar c = false ∧ c ≠ ':' ∧ (!(c == '-')) = true := by
  decide

/-- Removal of a pattern containing a character absent from the list is the
identity. -/
theorem removeAllAux_eq_self (pat : List Char) (c0 : Char) (hc0 : c0 ∈ pat) :
    ∀ fuel l, c0 ∉ l → removeAllAux pat fuel l = l := by
  intro fuel
  induction fuel with
  | zero => intro l _; rfl
  | succ n ih =>
    intro l hl
    cases l with
    | nil => rfl
    | cons c rest =>
      have hpre : ¬ (pat ≠ [] ∧ pat.isPrefixOf (c :: rest)) := by
        rintro ⟨-, hp⟩
        have hsub : pat ⊆ c :: rest := (List.isPrefixOf_iff_prefix.mp hp).subset
        exact hl (hsub hc0)
      have hrest : c0 ∉ rest := fun hh => hl (List.mem_cons_of_mem _ hh)
      simp only [removeAllAux, hpre, if_false]
      rw [ih rest hrest]

/-- Python `s.replace(pat, '')` is the identity when some pattern character
does not occur in the string. -/
theorem removeAll_eq_self (pat l : List Char) (c0 : Char) (hc0 : c0 ∈ pat)
    (h : c0 ∉ l) : removeAll pat l = l :=
  removeAllAux_eq_self pat c0 hc0 l.length l h

/-- Dropping a false-everywhere prefix predicate is the identity. -/
theorem dropWhile_eq_self_of {p : Char → Bool} {l : List Char}
    (h : ∀ c ∈ l, p c = false) : l.dropWhile p = l := by
  cases l with
  | nil => rfl
  | cons c rest => simp [List.dropWhile_cons, h c (List.mem_cons_self c rest)]

/-- Python brace stripping is the identity on brace-free strings. -/
theorem stripBraces_eq_self (l : List Char)
    (h : ∀ c ∈ l, isBraceChar c = false) : stripBraces l = l := by
  unfold stripBraces
  rw [dropWhile_eq_self_of h]
  rw [dropWhile_eq_self_of (fun c hc => h c (List.mem_reverse.mp hc))]
  exact List.reverse_reverse l

/-- The hyphen-grouped rendering recombines to the original digit list. -/
theorem insertHyphens_recombine (h : List Char) :
    h.take 8 ++ ((h.drop 8).take 4 ++ ((h.drop 12).take 4 ++
      ((h.drop 16).take 4 ++ h.drop 20))) = h := by
  have e20 : h.drop 20 = (h.drop 16).drop 4 := by
    rw [List.drop_drop]
  have e16 : (h.drop 16).take 4 ++ h.drop 20 = h.drop 16 := by
    rw [e20, List.take_append_drop]
  have e12' : h.drop 16 = (h.drop 12).drop 4 := by
    rw [List.drop_drop]
  have e12 : (h.drop 12).take 4 ++ h.drop 16 = h.drop 12 := by
    rw [e12', List.take_append_drop]
  have e8' : h.drop 12 = (h.drop 8).drop 4 := by
    rw [List.drop_drop]
  have e8 : (h.drop 8).take 4 ++ h.drop 12 = h.drop 8 := by
    rw [e8', List.take_append_drop]
  rw [e16, e12, e8, List.take_append_drop]

/-- Filtering the hyphens back out of the hyphen-grouped rendering recovers
the digit list, provided no digit is a hyphen. -/
theorem filter_insertHyphens (h : List Char)
    (hh : ∀ c ∈ h, (!(c == '-')) = true) :
    (insertHyphens h).filter (fun c => !(c == '-')) = h := by
  have hseg : ∀ (s : List Char), s ⊆ h → s.filter (fun c => !(c == '-')) = s :=
    fun s hs => List.filter_eq_self.mpr (fun c hc => hh c (hs hc))
  have t8 := hseg _ (List.take_subset 8 h)
  have t4a := hseg _ ((List.take_subset 4 (h.drop 8)).trans (List.drop_subset 8 h))
  have t4b := hseg _ ((List.take_subset 4 (h.drop 12)).trans (List.drop_subset 12 h))
  have t4c := hseg _ ((List.take_subset 4 (h.drop 16)).trans (List.drop_subset 16 h))
  have d20 := hseg _ (List.drop_subset 20 h)
  unfold insertHyphens
  simp only [List.filter_append, List.filter_cons, t8, t4a, t4b, t4c, d20]
  norm_num
  exact insertHyphens_recombine h

/-- Every character of the hyphen-grouped rendering is a digit or a hyphen. -/
theorem mem_insertHyphens {c : Char} {h : List Char}
    (hc : c ∈ insertHyphens h) : c ∈ h ∨ c = '-' := by
  unfold insertHyphens at hc
  rcases List.mem_append.mp hc with h1 | h1
  · exact Or.inl (List.take_subset 8 h h1)
  rcases List.mem_cons.mp h1 with h2 | h2
  · exact Or.inr h2
  rcases List.mem_append.mp h2 with h3 | h3
  · exact Or.inl (List.drop_subset 8 h (List.take_subset 4 _ h3))
  rcases List.mem_cons.mp h3 with h4 | h4
  · exact Or.inr h4
  rcases List.mem_append.mp h4 with h5 | h5
  · exact Or.inl (List.drop_subset 12 h (List.take_subset 4 _ h5))
  rcases List.mem_cons.mp h5 with h6 | h6
  · exact Or.inr h6
  rcases List.mem_append.mp h6 with h7 | h7
  · exact Or.inl (List.drop_subset 16 h (List.take_subset 4 _ h7))
  rcases List.mem_cons.mp h7 with h8 | h8
  · exact Or.inr h8
  · exact Or.inl (List.drop_subset 20 h h8)

/-- Lowercasing preserves list membership of the digit predicate. -/
theorem map_hexDigitLower_id (h : List Char)
    (hh : ∀ c ∈ h, hexDigitLower c = c) : h.map hexDigitLower = h := by
  induction h with
  | nil => rfl
  | cons c rest ih =>
    rw [List.map_cons, hh c (List.mem_cons_self c rest),
      ih (fun c' hc' => hh c' (List.mem_cons_of_mem _ hc'))]

/-- The output of Python UUID parsing passes the canonical-form check. -/
theorem isCanonical_of_pyCanonicalList {l t : List Char}
    (h : pyUUIDCanonicalList l = some t) : isCanonicalUUIDList t = true := by
  unfold pyUUIDCanonicalList at h
  set h0 := (stripBraces (removeAll "uuid:".toList (removeAll "urn:".toList l))).filter
    (fun c => !(c == '-')) with hh0
  by_cases hcond : h0.length = 32 ∧ h0.all isHexDigit = true
  · rw [if_pos hcond] at h
    obtain ⟨hlen, hhex⟩ := hcond
    have ht : t = insertHyphens (h0.map hexDigitLower) := (Option.some.inj h).symm
    set g := h0.map hexDigitLower with hg
    have hglow : ∀ c ∈ g, isLowerHexDigit c = true := by
      intro c hcmem
      rcases List.mem_map.mp hcmem with ⟨c0, hc0, rfl⟩
      exact lowerHex_of_hexDigitLower c0
        (mem_of_contains (by simpa [isHexDigit] using List.all_eq_true.mp hhex c0 hc0))
    have hgdash : ∀ c ∈ g, (!(c == '-')) = true := by
      intro c hcmem
      exact (lowerHex_not_special c (mem_of_contains (by
        simpa [isLowerHexDigit] using hglow c hcmem))).2.2
    have hglen : g.length = 32 := by simpa [hg] using hlen
    unfold isCanonicalUUIDList
    rw [ht, filter_insertHyphens g hgdash]
    simp [hglen, List.all_eq_true.mpr hglow]
  · rw [if_neg hcond] at h
    exact absurd h (by simp)

/-- Python UUID parsing is the identity on canonical renderings. -/
theorem pyCanonicalList_of_isCanonical {l : List Char}
    (h : isCanonicalUUIDList l = true) : pyUUIDCanonicalList l = some l := by
  unfold isCanonicalUUIDList at h
  set h0 := l.filter (fun c => !(c == '-')) with hh0
  have hparts := by simpa using h
  obtain ⟨⟨hlen, hlow⟩, hins⟩ :
      (h0.length = 32 ∧ h0.all isLowerHexDigit = true) ∧ insertHyphens h0 = l := by
    constructor
    · constructor
      · simpa using hparts.1.1
      · simpa using hparts.1.2
    · simpa using hparts.2
  have hmeml : ∀ c ∈ l, c ∈ lowerHexChars ∨ c = '-' := by
    intro c hcmem
    rw [← hins] at hcmem
    rcases mem_insertHyphens hcmem with h1 | h1
    · exact Or.inl (mem_of_contains (by
        simpa [isLowerHexDigit] using List.all_eq_true.mp hlow c h1))
    · exact Or.inr h1
  have hnocolon : (':' : Char) ∉ l := by
    intro hcol
    rcases hmeml ':' hcol with h1 | h1
    · exact absurd h1 (by decide)
    · exact absurd h1 (by decide)
  have hnobrace : ∀ c ∈ l, isBraceChar c = false := by
    intro c hcmem
    rcases hmeml c hcmem with h1 | h1
    · exact (lowerHex_not_special c h1).1
    · rw [h1]; decide
  unfold pyUUIDCanonicalList
  rw [removeAll_eq_self "urn:".toList l ':' (by decide) hnocolon,
    removeAll_eq_self "uuid:".toList l ':' (by decide) hnocolon,
    stripBraces_eq_self l hnobrace, ← hh0]
  have hhex : h0.all isHexDigit = true := by
    refine List.all_eq_true.mpr (fun c hcmem => ?_)
    have hc0 : c ∈ l := List.mem_of_mem_filter hcmem
    rcases hmeml c hc0 with h1 | h1
    · exact hex_of_lowerHex c h1
    · exfalso
      have hv := List.of_mem_filter hcmem
      rw [h1] at hv
      simp at hv
  rw [if_pos ⟨hlen, hhex⟩]
  have hid : h0.map hexDigitLower = h0 := by
    refine map_hexDigitLower_id h0 (fun c hcmem => ?_)
    have hc0 : c ∈ l := List.mem_of_mem_filter hcmem
    rcases hmeml c hc0 with h1 | h1
    · exact hexDigitLower_id_of_lower c h1
    · exfalso
      have hv := List.of_mem_filter hcmem
      rw [h1] at hv
      simp at hv
  rw [hid, hins]

/-- String building and destruction round-trip. -/
theorem string_mk_toList (s : String) : String.mk s.toList = s := rfl

/-- Python `str(UUID(s))` is the identity on canonical UUID strings. -/
theorem pyUUIDCanonical_of_canonical {s : String}
    (h : isCanonicalUUID s = true) : pyUUIDCanonical s = some s := by
  unfold pyUUIDCanonical
  rw [pyCanonicalList_of_isCanonical h]
  simp [string_mk_toList]

/-- Successful Python UUID parsing produces a canonical UUID string. -/
theorem canonical_of_pyUUIDCanonical {s t : String}
    (h : pyUUIDCanonical s = some t) : isCanonicalUUID t = true := by
  unfold pyUUIDCanonical at h
  cases hl : pyUUIDCanonicalList s.toList with
  | none => rw [hl] at h; exact absurd h (by simp)
  | some l =>
    rw [hl] at h
    have ht : t = String.mk l := (Option.some.inj (by simpa using h)).symm
    have : isCanonicalUUIDList l = true := isCanonical_of_pyCanonicalList hl
    rw [ht]
    simpa [isCanonicalUUID] using this

end UserDict

namespace UserDict

/-! ## Helper lemmas: the store read and write operations -/

/-- Keys produced by the read loop are canonical whenever the accumulator's
keys are. -/
theorem readEntries_keys_canonical (doc : List (String × SaveFormatUserDictWord)) :
    ∀ (acc res : List (String × UserDictWord)),
      readEntries doc acc = .ok res →
      (∀ k ∈ dictKeys acc, isCanonicalUUID k = true) →
      (∀ k ∈ dictKeys res, isCanonicalUUID k = true) := by
  induction doc with
  | nil =>
    intro acc res h hacc
    have hres : acc = res := by simpa [readEntries] using h
    subst hres
    exact hacc
  | cons p rest ih =>
    intro acc res h hacc
    obtain ⟨k, w⟩ := p
    cases hcanon : pyUUIDCanonical k with
    | none => simp only [readEntries, hcanon] at h; exact absurd h (by simp)
    | some k' =>
      simp only [readEntries, hcanon] at h
      refine ih _ res h ?_
      intro k0 hk0
      rw [dictKeys_dictInsert] at hk0
      by_cases hc : dictContains acc k'
      · exact hacc k0 (by simpa [hc] using hk0)
      · rcases (by simpa [hc] using hk0 : k0 ∈ dictKeys acc ∨ k0 = k') with h1 | h1
        · exact hacc k0 h1
        · rw [h1]
          exact canonical_of_pyUUIDCanonical hcanon

/-- Keys produced by the read loop stay duplicate-free. -/
theorem readEntries_nodup (doc : List (String × SaveFormatUserDictWord)) :
    ∀ (acc res : List (String × UserDictWord)),
      readEntries doc acc = .ok res →
      (dictKeys acc).Nodup → (dictKeys res).Nodup := by
  induction doc with
  | nil =>
    intro acc res h hacc
    have hres : acc = res := by simpa [readEntries] using h
    subst hres
    exact hacc
  | cons p rest ih =>
    intro acc res h hacc
    obtain ⟨k, w⟩ := p
    cases hcanon : pyUUIDCanonical k with
    | none => simp only [readEntries, hcanon] at h; exact absurd h (by simp)
    | some k' =>
      simp only [readEntries, hcanon] at h
      exact ih _ res h (nodup_dictInsert acc k' _ hacc)

/-- Every key of a successful `read_dict` result is canonical. -/
theorem read_dict_keys_canonical (st : DictState)
    (res : List (String × UserDictWord)) (h : read_dict st = .ok res) :
    ∀ k ∈ dictKeys res, isCanonicalUUID k = true := by
  cases hf : st.file with
  | none =>
    rw [read_dict, hf] at h
    have hres : ([] : List (String × UserDictWord)) = res := by simpa using h
    intro k hk
    rw [← hres] at hk
    simp at hk
  | some doc =>
    rw [read_dict, hf] at h
    exact readEntries_keys_canonical doc [] res h (by simp)

/-- The key sequence of a successful `read_dict` result is duplicate-free. -/
theorem read_dict_nodup (st : DictState)
    (res : List (String × UserDictWord)) (h : read_dict st = .ok res) :
    (dictKeys res).Nodup := by
  cases hf : st.file with
  | none =>
    rw [read_dict, hf] at h
    have hres : ([] : List (String × UserDictWord)) = res := by simpa using h
    rw [← hres]
    simp
  | some doc =>
    rw [read_dict, hf] at h
    exact readEntries_nodup doc [] res h (by simp)

/-- Reading back the save-format rendering of a canonical-keyed,
duplicate-free dictionary appends it to the accumulator verbatim. -/
theorem readEntries_toSaveDoc (d : List (String × UserDictWord)) :
    ∀ (acc : List (String × UserDictWord)),
      (∀ k ∈ dictKeys d, isCanonicalUUID k = true) →
      (dictKeys acc ++ dictKeys d).Nodup →
      readEntries (toSaveDoc d) acc = .ok (acc ++ d) := by
  induction d with
  | nil => intro acc _ _; simp [toSaveDoc, readEntries]
  | cons p rest ih =>
    intro acc hc hn
    obtain ⟨k, w⟩ := p
    have hck : isCanonicalUUID k = true := hc k (by simp)
    have hcanon : pyUUIDCanonical k = some k := pyUUIDCanonical_of_canonical hck
    have hstep : toSaveDoc ((k, w) :: rest)
        = (k, convert_to_save_format w) :: toSaveDoc rest := rfl
    rw [hstep]
    simp only [readEntries, hcanon, convert_from_to_save_format]
    have hknotacc : k ∉ dictKeys acc := by
      intro hmem
      have hdisj := (List.nodup_append.mp hn).2.2
      exact hdisj hmem (by simp)
    have hcf : ¬ dictContains acc k = true :=
      fun hcont => hknotacc ((dictContains_iff_mem acc k).mp hcont)
    have hins : dictInsert acc k w = acc ++ [(k, w)] := by
      unfold dictInsert
      rw [if_neg hcf]
    rw [hins]
    have hres := ih (acc ++ [(k, w)])
      (fun k0 hk0 => hc k0 (by simp [hk0]))
      (by
        have heq : dictKeys (acc ++ [(k, w)]) ++ dictKeys rest
            = dictKeys acc ++ (k :: dictKeys rest) := by
          simp [dictKeys]
        rw [heq]
        simpa [dictKeys] using hn)
    rw [hres]
    simp

/-- Reading immediately after `_write_to_json` recovers the written
dictionary, provided its keys are canonical and duplicate-free. -/
theorem read_after_write (st : DictState) (d : List (String × UserDictWord))
    (hc : ∀ k ∈ dictKeys d, isCanonicalUUID k = true)
    (hn : (dictKeys d).Nodup) :
    read_dict (_write_to_json st d) = .ok d := by
  have hfile : (_write_to_json st d).file = some (toSaveDoc d) := rfl
  rw [read_dict, hfile]
  have := readEntries_toSaveDoc d [] hc (by simpa using hn)
  simpa using this

end UserDict

namespace UserDict

/-! ## Helper lemmas: import validation and the pipeline -/

/-- Category validation fails only with the two category errors. -/
theorem validate_word_error_cases {table : List PartOfSpeechDetail}
    {w : UserDictWord} {e : DictErr} (h : validate_word table w = .error e) :
    e = .unsupportedCategory ∨ e = .categoryAssertion := by
  unfold validate_word at h
  cases hf : findPos table w.context_id with
  | none =>
    simp only [hf] at h
    exact Or.inl (Except.error.inj h).symm
  | some pos =>
    simp only [hf] at h
    by_cases hcond : w.part_of_speech = pos.part_of_speech ∧
        w.part_of_speech_detail_1 = pos.part_of_speech_detail_1 ∧
        w.part_of_speech_detail_2 = pos.part_of_speech_detail_2 ∧
        w.part_of_speech_detail_3 = pos.part_of_speech_detail_3 ∧
        pos.accent_associative_rules.contains w.accent_associative_rule = true
    · rw [if_pos hcond] at h
      exact absurd h (by simp)
    · rw [if_neg hcond] at h
      exact Or.inr (Except.error.inj h).symm

/-- When every key is a valid UUID string and some entry fails category
validation, the batch validation returns a category error. -/
theorem validate_import_data_error (table : List PartOfSpeechDetail) :
    ∀ l : List (String × UserDictWord),
      (∀ p ∈ l, (pyUUIDCanonical p.1).isSome = true) →
      (∃ p ∈ l, validate_word table p.2 ≠ .ok ()) →
      ∃ e, validate_import_data table l = .error e ∧
           (e = .unsupportedCategory ∨ e = .categoryAssertion) := by
  intro l
  induction l with
  | nil =>
    rintro _ ⟨p, hp, -⟩
    exact absurd hp (by simp)
  | cons q rest ih =>
    intro hkeys hbad
    obtain ⟨k, w⟩ := q
    have hkey : (pyUUIDCanonical k).isSome = true := hkeys (k, w) (by simp)
    cases hv : validate_word table w with
    | error e =>
      refine ⟨e, ?_, validate_word_error_cases hv⟩
      simp only [validate_import_data, hkey, if_true, hv]
    | ok u =>
      obtain ⟨p, hp, hpbad⟩ := hbad
      rcases List.mem_cons.mp hp with h1 | h1
      · cases u
        rw [h1] at hpbad
        exact absurd hv hpbad
      · obtain ⟨e, he, hcases⟩ := ih
          (fun p' hp' => hkeys p' (List.mem_cons_of_mem _ hp'))
          ⟨p, h1, hpbad⟩
        refine ⟨e, ?_, hcases⟩
        cases u
        simp only [validate_import_data, hkey, if_true, hv, he]

/-- A successful batch validation means every key parses as a UUID. -/
theorem validate_import_data_ok_keys (table : List PartOfSpeechDetail) :
    ∀ l : List (String × UserDictWord),
      validate_import_data table l = .ok () →
      ∀ p ∈ l, (pyUUIDCanonical p.1).isSome = true := by
  intro l
  induction l with
  | nil => intro _ p hp; exact absurd hp (by simp)
  | cons q rest ih =>
    intro h p hp
    obtain ⟨k, w⟩ := q
    by_cases hkey : (pyUUIDCanonical k).isSome = true
    · rcases List.mem_cons.mp hp with h1 | h1
      · rw [h1]; exact hkey
      · cases hv : validate_word table w with
        | error e =>
          simp only [validate_import_data, hkey, if_true, hv] at h
          exact absurd h (by simp)
        | ok u =>
          cases u
          simp only [validate_import_data, hkey, if_true, hv] at h
          exact ih h p h1
    · simp only [validate_import_data, hkey, if_false] at h
      exact absurd h (by simp)

/-- The pipeline never touches the persisted document. -/
theorem update_dict_file (plat : Platform) (env : Env) (st : DictState) :
    (update_dict plat env st).state.file = st.file := by
  cases hbd : env.defaultDictText with
  | none => simp [update_dict, hbd]
  | some txt =>
    cases hr : read_dict st with
    | error e => simp [update_dict, hbd, hr]
    | ok d => cases hco : env.compileOutcome <;> simp [update_dict, hbd, hr, hco]

/-- With the base dictionary present, a readable store and a failing
compiler, the pipeline reports `CompilationError` and changes nothing. -/
theorem update_dict_compile_fail (plat : Platform) (env : Env) (st : DictState)
    (txt : String) (d : List (String × UserDictWord))
    (hbase : env.defaultDictText = some txt)
    (hco : env.compileOutcome ≠ .ok)
    (hread : read_dict st = .ok d) :
    (update_dict plat env st).state = st ∧
    (update_dict plat env st).result = .error .compilationError := by
  cases hco' : env.compileOutcome with
  | ok => exact absurd hco' hco
  | raisesError => constructor <;> simp [update_dict, hbase, hread, hco']
  | noArtifact => constructor <;> simp [update_dict, hbase, hread, hco']

/-- With the base dictionary absent, the pipeline warns and returns without
error and without touching any state. -/
theorem update_dict_no_base (plat : Platform) (env : Env) (st : DictState)
    (hbase : env.defaultDictText = none) :
    update_dict plat env st =
      { state := st
        result := .ok ()
        log := { warnedMissingBase := true, csvCreated := false,
                 csvRemaining := false, compiledCreated := false,
                 compiledRemoval := none } } := by
  simp [update_dict, hbase]

end UserDict

namespace UserDict

/-- Canonical UUID strings are accepted by Python UUID parsing. -/
theorem valid_of_canonical {k : String} (h : isCanonicalUUID k = true) :
    (pyUUIDCanonical k).isSome = true := by
  rw [pyUUIDCanonical_of_canonical h]
  rfl

/-- The save-format rendering keeps the key sequence. -/
theorem dictKeys_toSaveDoc (d : List (String × UserDictWord)) :
    dictKeys (toSaveDoc d) = dictKeys d := by
  simp [toSaveDoc, dictKeys]

/-- The read loop succeeds on any document whose keys all parse as UUIDs. -/
theorem readEntries_ok_of_valid_keys (d : List (String × SaveFormatUserDictWord)) :
    ∀ acc, (∀ k ∈ dictKeys d, (pyUUIDCanonical k).isSome = true) →
      ∃ res, readEntries d acc = .ok res := by
  induction d with
  | nil => intro acc _; exact ⟨acc, rfl⟩
  | cons p rest ih =>
    intro acc hv
    obtain ⟨k, w⟩ := p
    have hk := hv k (by simp)
    cases hcanon : pyUUIDCanonical k with
    | none => rw [hcanon] at hk; simp at hk
    | some k' =>
      obtain ⟨res, hres⟩ := ih (dictInsert acc k' (convert_from_save_format w))
        (fun k0 hk0 => hv k0 (List.mem_cons_of_mem _ hk0))
      exact ⟨res, by simp only [readEntries, hcanon]; exact hres⟩

/-- Reading after a write succeeds whenever every written key parses as a
UUID. -/
theorem read_dict_write_ok (st : DictState) (d : List (String × UserDictWord))
    (hv : ∀ k ∈ dictKeys d, (pyUUIDCanonical k).isSome = true) :
    ∃ res, read_dict (_write_to_json st d) = .ok res := by
  obtain ⟨res, h⟩ := readEntries_ok_of_valid_keys (toSaveDoc d) []
    (by rw [dictKeys_toSaveDoc]; exact hv)
  exact ⟨res, by rw [read_dict]; exact h⟩

/-- Inserting a canonical key into a canonical-keyed dictionary keeps every
key canonical. -/
theorem canonical_keys_dictInsert (old : List (String × UserDictWord))
    (u : String) (w : UserDictWord)
    (hcanon_old : ∀ k ∈ dictKeys old, isCanonicalUUID k = true)
    (hu : isCanonicalUUID u = true) :
    ∀ k ∈ dictKeys (dictInsert old u w), isCanonicalUUID k = true := by
  intro k hk
  rw [dictKeys_dictInsert] at hk
  by_cases hc : dictContains old u
  · exact hcanon_old k (by simpa [hc] using hk)
  · rcases (by simpa [hc] using hk : k ∈ dictKeys old ∨ k = u) with h1 | h1
    · exact hcanon_old k h1
    · rw [h1]; exact hu

/-! ## Claims -/

/-- C8: for every Dictionary D (canonical UUID keys, duplicate-free as every
Python dict is), writing D to the store via `_write_to_json` and then reading
the store back via `read_dict` returns a Dictionary equal to D — the
write/read round trip through the save-format serialization is the
identity. -/
theorem c8_write_read_roundtrip (st : DictState)
    (d : List (String × UserDictWord))
    (hc : ∀ k ∈ dictKeys d, isCanonicalUUID k = true)
    (hn : (dictKeys d).Nodup) :
    read_dict (_write_to_json st d) = .ok d :=
  read_after_write st d hc hn

/-- Witness for C8 at a concrete one-entry dictionary. -/
theorem c8_write_read_roundtrip_witness :
    read_dict (_write_to_json stEmpty [(uuidA, w0)]) = .ok [(uuidA, w0)] :=
  c8_write_read_roundtrip stEmpty [(uuidA, w0)] (by decide) (by decide)

/-- C9: every `update_dict` run, on every platform and under every outcome
(missing base dictionary, corrupt store, compiler failure, missing artifact,
success), leaves no CSV temporary behind — the export-text temporary is
deleted immediately and unconditionally — and requests removal of the
compiled temporary exactly when it was created, via `_delete_file_on_close`,
which unlinks immediately off Windows and uses a delete-on-last-close
disposition on Windows. -/
theorem c9_cleanup_both_artifacts (plat : Platform) (env : Env) (st : DictState) :
    (update_dict plat env st).log.csvRemaining = false ∧
    ((update_dict plat env st).log.compiledRemoval =
      if (update_dict plat env st).log.compiledCreated then
        some (_delete_file_on_close plat)
      else none) ∧
    _delete_file_on_close .win32 = .deleteOnLastClose ∧
    _delete_file_on_close .other = .immediateUnlink := by
  refine ⟨?_, ?_, rfl, rfl⟩ <;>
  · cases hbd : env.defaultDictText with
    | none => simp [update_dict, hbd]
    | some txt =>
      cases hr : read_dict st with
      | error e => simp [update_dict, hbd, hr]
      | ok d => cases hco : env.compileOutcome <;> simp [update_dict, hbd, hr, hco]

/-- C10: every key of a successful `read_dict` result is the canonical
lowercase hyphenated rendering of a UUID, because the read loop rebuilds each
key as `str(UUID(word_uuid))`; valid but non-canonical persisted keys come
back normalized, not verbatim. -/
theorem c10_read_keys_canonical (st : DictState)
    (res : List (String × UserDictWord)) (h : read_dict st = .ok res) :
    ∀ k ∈ dictKeys res, isCanonicalUUID k = true :=
  read_dict_keys_canonical st res h

/-- Witness for C10: a persisted document keyed by an uppercase (valid,
non-canonical) UUID string reads back under the lowercase canonical key. -/
theorem c10_read_keys_canonical_witness :
    read_dict stUpper = .ok [(uuidA, w0)] ∧ isCanonicalUUID uuidA = true ∧
    uuidA ≠ "AAAAAAAA-AAAA-4AAA-8AAA-AAAAAAAAAAAA" :=
  ⟨by decide, c10_read_keys_canonical stUpper [(uuidA, w0)] (by decide) uuidA (by decide),
   by decide⟩

end UserDict

namespace UserDict

/-- C3 counterexample: an edit-triggered pipeline run with the base
dictionary absent does not fail with `MissingBaseDictionaryError` — the
concrete `apply_word` call succeeds, returning the fresh UUID. -/
theorem c3_counterexample_no_missing_base_error :
    (apply_word .other envNoBase stEmpty wp0 uuidA).2 = .ok uuidA ∧
    (apply_word .other envNoBase stEmpty wp0 uuidA).2 ≠
      .error .missingBaseDictionary ∧
    (update_dict .other envNoBase stEmpty).result = .ok () :=
  ⟨rfl, by decide, rfl⟩

/-- C3 (amended): when the base dictionary file is absent, every
recompilation run — the refresh form `update_dict` and the edit-triggered
form inside `apply_word` alike — logs the condition (warning flag) and
returns without error; the edit is still persisted and the analyzer index is
left untouched. -/
theorem c3_missing_base_always_tolerated (plat : Platform) (env : Env)
    (st : DictState) (wp : WordProperty) (u : String)
    (old : List (String × UserDictWord))
    (hbase : env.defaultDictText = none)
    (hread : read_dict st = .ok old) :
    update_dict plat env st =
      { state := st
        result := .ok ()
        log := { warnedMissingBase := true, csvCreated := false,
                 csvRemaining := false, compiledCreated := false,
                 compiledRemoval := none } } ∧
    apply_word plat env st wp u =
      (_write_to_json st (dictInsert old u (create_word wp)), .ok u) := by
  constructor
  · exact update_dict_no_base plat env st hbase
  · simp only [apply_word, hread]
    rw [update_dict_no_base plat env _ hbase]

/-- Witness for the amended C3 at a concrete state. -/
theorem c3_missing_base_always_tolerated_witness :
    update_dict .other envNoBase st0 =
      { state := st0
        result := .ok ()
        log := { warnedMissingBase := true, csvCreated := false,
                 csvRemaining := false, compiledCreated := false,
                 compiledRemoval := none } } :=
  (c3_missing_base_always_tolerated .other envNoBase st0 wp1 uuidB
    [(uuidA, w0)] rfl (by decide)).1

/-- C4: when any incoming entry's grammatical category fields fail to match
the reference table, `import_user_dict` raises one of the two validation
errors the spec folds into `UnsupportedCategoryError` (the `ValueError` for
an unknown category id, the `AssertionError` for mismatched detail fields or
rule), and returns the state completely unchanged — no partial merge, no
write, no recompile. -/
theorem c4_import_invalid_category_atomic (plat : Platform) (env : Env)
    (table : List PartOfSpeechDetail) (st : DictState)
    (dict_data : List (String × UserDictWord)) (override : Bool)
    (hkeys : ∀ p ∈ dict_data, (pyUUIDCanonical p.1).isSome = true)
    (hbad : ∃ p ∈ dict_data, validate_word table p.2 ≠ .ok ()) :
    ∃ e, import_user_dict plat env table st dict_data override = (st, .error e) ∧
         (e = .unsupportedCategory ∨ e = .categoryAssertion) := by
  obtain ⟨e, he, hcases⟩ := validate_import_data_error table dict_data hkeys hbad
  exact ⟨e, by simp [import_user_dict, he], hcases⟩

/-- Witness for C4: importing a word with an unknown category id fails and
leaves the empty state untouched. -/
theorem c4_import_invalid_category_atomic_witness :
    ∃ e, import_user_dict .other envOk sampleTable stEmpty badBatch true =
          (stEmpty, .error e) ∧
         (e = .unsupportedCategory ∨ e = .categoryAssertion) :=
  c4_import_invalid_category_atomic .other envOk sampleTable stEmpty badBatch
    true (by decide) ⟨(uuidA, wBadCategory), by decide, by decide⟩

/-- C5: `import_user_dict` merges by id with Python dict-literal semantics:
the persisted document becomes exactly the merge, in which — with
`override = true` — an id collision resolves to the incoming entry, with
`override = false` to the pre-existing entry, and ids present on only one
side keep their entry unchanged. -/
theorem c5_import_merge_semantics (plat : Platform) (env : Env)
    (table : List PartOfSpeechDetail) (st : DictState)
    (dict_data : List (String × UserDictWord)) (override : Bool)
    (old merged : List (String × UserDictWord))
    (hread : read_dict st = .ok old)
    (hvalid : validate_import_data table dict_data = .ok ())
    (hnodup : (dictKeys dict_data).Nodup)
    (hm : merged = if override then pyMerge old dict_data
                   else pyMerge dict_data old) :
    (import_user_dict plat env table st dict_data override).1.file =
      some (toSaveDoc merged) ∧
    (override = true →
      ∀ k v, dictGet dict_data k = some v → dictGet merged k = some v) ∧
    (override = false →
      ∀ k v, dictGet old k = some v → dictGet merged k = some v) ∧
    (∀ k, dictGet dict_data k = none → dictGet merged k = dictGet old k) ∧
    (∀ k, dictGet old k = none → dictGet merged k = dictGet dict_data k) := by
  have hnodup_old := read_dict_nodup st old hread
  refine ⟨?_, ?_, ?_, ?_, ?_⟩
  · simp only [import_user_dict, hvalid, hread]
    rw [update_dict_file]
    subst hm
    cases override <;> simp [_write_to_json]
  · intro hov k v hg
    subst hm; subst hov
    rw [if_pos rfl]
    rw [dictGet_pyMerge old dict_data k hnodup, hg]
  · intro hov k v hg
    subst hm; subst hov
    rw [if_neg Bool.false_ne_true]
    rw [dictGet_pyMerge dict_data old k hnodup_old, hg]
  · intro k hg
    subst hm
    cases override with
    | true =>
      rw [if_pos rfl]
      rw [dictGet_pyMerge old dict_data k hnodup, hg]
    | false =>
      rw [if_neg Bool.false_ne_true]
      rw [dictGet_pyMerge dict_data old k hnodup_old]
      cases hgo : dictGet old k <;> simp [hg]
  · intro k hg
    subst hm
    cases override with
    | true =>
      rw [if_pos rfl]
      rw [dictGet_pyMerge old dict_data k hnodup]
      cases hgd : dictGet dict_data k <;> simp [hg]
    | false =>
      rw [if_neg Bool.false_ne_true]
      rw [dictGet_pyMerge dict_data old k hnodup_old, hg]

/-- Witness for C5: importing a fresh entry with `override = true` merges it
after the existing one. -/
theorem c5_import_merge_semantics_witness :
    (import_user_dict .other envOk sampleTable st0 [(uuidB, w1)] true).1.file =
      some (toSaveDoc (pyMerge [(uuidA, w0)] [(uuidB, w1)])) :=
  (c5_import_merge_semantics .other envOk sampleTable st0 [(uuidB, w1)] true
    [(uuidA, w0)] (pyMerge [(uuidA, w0)] [(uuidB, w1)])
    (by decide) (by decide) (by decide) rfl).1

/-- C6: `rewrite_word` and `delete_word` on an id absent from the current
Dictionary fail with the not-found `UserDictInputError` and return the state
untouched (no write, no recompile); `delete_word` on a present id removes
exactly that entry and no other. -/
theorem c6_absent_id_and_exact_delete (plat : Platform) (env : Env)
    (st : DictState) (k : String) (wp : WordProperty)
    (old : List (String × UserDictWord))
    (hread : read_dict st = .ok old) :
    (dictContains old k = false →
      rewrite_word plat env st k wp = (st, .error .notFound) ∧
      delete_word plat env st k = (st, .error .notFound)) ∧
    (dictContains old k = true →
      (delete_word plat env st k).1.file = some (toSaveDoc (dictRemove old k)) ∧
      dictGet (dictRemove old k) k = none ∧
      (∀ k', k' ≠ k → dictGet (dictRemove old k) k' = dictGet old k')) := by
  constructor
  · intro hc
    constructor
    · simp [rewrite_word, hread, hc]
    · simp [delete_word, hread, hc]
  · intro hc
    refine ⟨?_, ?_, ?_⟩
    · simp only [delete_word, hread, hc, if_true]
      rw [update_dict_file]
      rfl
    · rw [dictGet_dictRemove]
      simp
    · intro k' hk'
      rw [dictGet_dictRemove]
      simp [hk']

/-- Witness for C6: rewriting an absent id against a one-entry store fails
with not-found and leaves the state unchanged. -/
theorem c6_absent_id_and_exact_delete_witness :
    rewrite_word .other envOk st0 uuidB wp1 = (st0, .error .notFound) ∧
    delete_word .other envOk st0 uuidB = (st0, .error .notFound) :=
  (c6_absent_id_and_exact_delete .other envOk st0 uuidB wp1
    [(uuidA, w0)] (by decide)).1 (by decide)

end UserDict

namespace UserDict

/-- C7: the pipeline fails with `CompilationError` whenever the external
compiler raises or its output artifact does not appear; every mutating
operation persists the new Dictionary via `_write_to_json` before invoking
`update_dict`, so after a compile failure the persisted file already holds
the edit and a fresh `read_dict` still returns it — the edit is durable even
though the analyzer was not refreshed. -/
theorem c7_persist_precedes_compile (plat : Platform) (env : Env)
    (st : DictState) (wp : WordProperty) (u k : String)
    (table : List PartOfSpeechDetail)
    (dict_data : List (String × UserDictWord)) (override : Bool)
    (old : List (String × UserDictWord)) (txt : String)
    (hread : read_dict st = .ok old)
    (hbase : env.defaultDictText = some txt)
    (hco : env.compileOutcome ≠ .ok)
    (hu : isCanonicalUUID u = true) :
    ((update_dict plat env st).result = .error .compilationError) ∧
    ((apply_word plat env st wp u).2 = .error .compilationError ∧
     (apply_word plat env st wp u).1.file =
       some (toSaveDoc (dictInsert old u (create_word wp))) ∧
     read_dict (apply_word plat env st wp u).1 =
       .ok (dictInsert old u (create_word wp)) ∧
     dictGet (dictInsert old u (create_word wp)) u = some (create_word wp)) ∧
    (dictContains old k = true →
      (rewrite_word plat env st k wp).2 = .error .compilationError ∧
      (rewrite_word plat env st k wp).1.file =
        some (toSaveDoc (dictInsert old k (create_word wp))) ∧
      (delete_word plat env st k).2 = .error .compilationError ∧
      (delete_word plat env st k).1.file =
        some (toSaveDoc (dictRemove old k))) ∧
    (validate_import_data table dict_data = .ok () →
      (import_user_dict plat env table st dict_data override).2 =
        .error .compilationError ∧
      (import_user_dict plat env table st dict_data override).1.file =
        some (toSaveDoc (if override then pyMerge old dict_data
                         else pyMerge dict_data old))) := by
  have hcanon_old := read_dict_keys_canonical st old hread
  have hnodup_old := read_dict_nodup st old hread
  refine ⟨?_, ?_, ?_, ?_⟩
  · exact (update_dict_compile_fail plat env st txt old hbase hco hread).2
  · -- apply_word
    have hc1 := canonical_keys_dictInsert old u (create_word wp) hcanon_old hu
    have hn1 := nodup_dictInsert old u (create_word wp) hnodup_old
    have hr1 : read_dict (_write_to_json st (dictInsert old u (create_word wp)))
        = .ok (dictInsert old u (create_word wp)) :=
      read_after_write st _ hc1 hn1
    obtain ⟨hstate1, hresult1⟩ := update_dict_compile_fail plat env
      (_write_to_json st (dictInsert old u (create_word wp)))
      txt (dictInsert old u (create_word wp)) hbase hco hr1
    have happly : apply_word plat env st wp u =
        ((update_dict plat env
          (_write_to_json st (dictInsert old u (create_word wp)))).state,
         .error .compilationError) := by
      simp only [apply_word, hread, hresult1]
    rw [happly, hstate1]
    exact ⟨rfl, rfl, hr1, by rw [dictGet_dictInsert]; simp⟩
  · -- rewrite_word and delete_word on a present id
    intro hc
    have hkmem : k ∈ dictKeys old := (dictContains_iff_mem old k).mp hc
    have hkcanon : isCanonicalUUID k = true := hcanon_old k hkmem
    have hc2 := canonical_keys_dictInsert old k (create_word wp) hcanon_old hkcanon
    have hn2 := nodup_dictInsert old k (create_word wp) hnodup_old
    have hr2 : read_dict (_write_to_json st (dictInsert old k (create_word wp)))
        = .ok (dictInsert old k (create_word wp)) :=
      read_after_write st _ hc2 hn2
    obtain ⟨hstate2, hresult2⟩ := update_dict_compile_fail plat env
      (_write_to_json st (dictInsert old k (create_word wp)))
      txt (dictInsert old k (create_word wp)) hbase hco hr2
    have hrw : rewrite_word plat env st k wp =
        ((update_dict plat env
          (_write_to_json st (dictInsert old k (create_word wp)))).state,
         .error .compilationError) := by
      simp only [rewrite_word, hread, hc, if_true, hresult2]
    have hc3 : ∀ k0 ∈ dictKeys (dictRemove old k), isCanonicalUUID k0 = true :=
      fun k0 hk0 => hcanon_old k0 (dictKeys_dictRemove_subset old k k0 hk0)
    have hn3 := nodup_dictRemove old k hnodup_old
    have hr3 : read_dict (_write_to_json st (dictRemove old k))
        = .ok (dictRemove old k) :=
      read_after_write st _ hc3 hn3
    obtain ⟨hstate3, hresult3⟩ := update_dict_compile_fail plat env
      (_write_to_json st (dictRemove old k))
      txt (dictRemove old k) hbase hco hr3
    have hdel : delete_word plat env st k =
        ((update_dict plat env
          (_write_to_json st (dictRemove old k))).state,
         .error .compilationError) := by
      simp only [delete_word, hread, hc, if_true, hresult3]
    refine ⟨?_, ?_, ?_, ?_⟩
    · rw [hrw]
    · rw [hrw, hstate2]
      rfl
    · rw [hdel]
    · rw [hdel, hstate3]
      rfl
  · -- import_user_dict
    intro hvalid
    have hvdkeys := validate_import_data_ok_keys table dict_data hvalid
    have hmerged : ∀ k0 ∈ dictKeys (if override then pyMerge old dict_data
        else pyMerge dict_data old), (pyUUIDCanonical k0).isSome = true := by
      intro k0 hk0
      have hcases : k0 ∈ dictKeys old ∨ k0 ∈ dictKeys dict_data := by
        cases override with
        | true =>
          rw [if_pos rfl] at hk0
          exact dictKeys_pyMerge_subset old dict_data k0 hk0
        | false =>
          rw [if_neg Bool.false_ne_true] at hk0
          exact (dictKeys_pyMerge_subset dict_data old k0 hk0).symm
      rcases hcases with h1 | h1
      · exact valid_of_canonical (hcanon_old k0 h1)
      · obtain ⟨p, hp, hpk⟩ := List.mem_map.mp h1
        rw [← hpk]
        exact hvdkeys p hp
    obtain ⟨res4, hr4⟩ := read_dict_write_ok st _ hmerged
    obtain ⟨hstate4, hresult4⟩ := update_dict_compile_fail plat env
      (_write_to_json st (if override then pyMerge old dict_data
        else pyMerge dict_data old))
      txt res4 hbase hco hr4
    have himp : import_user_dict plat env table st dict_data override =
        ((update_dict plat env
          (_write_to_json st (if override then pyMerge old dict_data
            else pyMerge dict_data old))).state,
         .error .compilationError) := by
      simp only [import_user_dict, hvalid, hread, hresult4]
    rw [himp, hstate4]
    exact ⟨rfl, rfl⟩

/-- Witness for C7: with a compiler that produces no artifact, a concrete
`apply_word` reports the compilation error while the persisted store already
reflects the new entry. -/
theorem c7_persist_precedes_compile_witness :
    (apply_word .other envCompileFail st0 wp1 uuidB).2 =
      .error .compilationError ∧
    read_dict (apply_word .other envCompileFail st0 wp1 uuidB).1 =
      .ok (dictInsert [(uuidA, w0)] uuidB (create_word wp1)) := by
  have h := c7_persist_precedes_compile .other envCompileFail st0 wp1 uuidB
    uuidA sampleTable [] true [(uuidA, w0)]
    (envOk.defaultDictText.getD "") (by decide) rfl (by decide) (by decide)
  exact ⟨h.2.1.1, h.2.1.2.2.1⟩

end UserDict

namespace UserDict

/-- C1: the claim asserts that concurrent mutating operations execute their
read-modify-write-persist-recompile sequences atomically, so N concurrent
`apply_word` calls against an empty Dictionary leave N entries.  The code's
locks guard `read_dict`, `_write_to_json` and `update_dict` individually but
not the enclosing operations; under that granularity the interleaving
read-A, read-B, write-A, write-B, update-A, update-B of two `apply_word`
callers against the empty store completes both callers yet persists exactly
one entry — caller A's edit is lost. -/
theorem c1_lost_update_schedule :
    (runSchedule .other envOk stEmpty [threadA, threadB]
      [0, 1, 0, 1, 0, 1]).1.file =
      some [(uuidB, convert_to_save_format (create_word wp0))] ∧
    ((runSchedule .other envOk stEmpty [threadA, threadB]
      [0, 1, 0, 1, 0, 1]).2.all (fun t => t.pc == 3)) = true ∧
    [(uuidB, convert_to_save_format (create_word wp0))].length = 1 ∧
    (1 : Nat) ≠ 2 :=
  ⟨by decide, by decide, rfl, by decide⟩

/-- C2: the claim requires the store write to replace the persisted document
all-or-nothing, e.g. by write-to-temp-then-rename.  `_write_to_json` instead
rewrites `user_dict.json` in place with a single `Path.write_bytes`
(open-truncate-write), so an interrupted write is observable as a proper
prefix of the new serialization: one character in, a reader sees "\x7b",
which is neither the previous document nor the new one. -/
theorem c2_inplace_write_partial_state_observable :
    write_bytes_interrupted (user_dict_json [(uuidA, w0)]) 1 ∈
      write_bytes_observable_states (user_dict_json [(uuidA, w0)]) ∧
    write_bytes_interrupted (user_dict_json [(uuidA, w0)]) 1 = "\x7b" ∧
    dump_json [] = "\x7b\x7d" ∧
    write_bytes_interrupted (user_dict_json [(uuidA, w0)]) 1 ≠ dump_json [] ∧
    write_bytes_interrupted (user_dict_json [(uuidA, w0)]) 1 ≠
      user_dict_json [(uuidA, w0)] :=
  ⟨by decide, by decide, rfl, by decide, by decide⟩

end UserDict
